import Mathlib

/-!
Verification development for the tool-calling orchestration core of the
Ollama_Dev_Setup repository (`agent_tool_client.py`, `tool_integration.py`).

The Python code is shallowly embedded:
* JSON-like Python values (dicts, lists, strings, numbers, booleans, `None`)
  are the inductive type `Json`.
* Python exceptions that the code can raise or catch are `PyExc`; fallible
  Python expressions become `Except PyExc` computations.
* `json.loads` / `json.dumps` are external standard-library collaborators and
  are passed in as parameters (`dec : JsonDec`, `enc : Json → String`).
* `time.sleep` and handler invocations are effects; they are made explicit as
  an `ExecLog` trace (number of handler invocations, list of sleep durations).
* The network (`chat_completion`) is an external collaborator; the sequence of
  model responses a conversation receives is an oracle `Nat → Json`, indexed
  by the send number (the `iteration` counter of the source is incremented
  exactly once immediately before each send, so the final `iteration` value
  is the number of send operations performed).
* Tool handlers are external caller code: a handler receives the decoded
  argument set and, because it may behave differently on successive retry
  attempts, also the 0-based attempt number; it returns a payload or the
  message of the exception it raises.
-/

/-- A Python value as manipulated by the client: JSON data plus `None`. -/
inductive Json where
  | null : Json
  | bool : Bool → Json
  | num : Int → Json
  | str : String → Json
  | arr : List Json → Json
  | obj : List (String × Json) → Json

/-- The Python exception kinds the embedded code can raise or catch. -/
inductive PyExc where
  | keyError : PyExc
  | indexError : PyExc
  | typeError : PyExc
  | attributeError : PyExc
  | valueError : PyExc
deriving DecidableEq

/-- Dictionary lookup as a pure function (first binding of the key wins;
Python dict keys are unique so this agrees with the dict). -/
def jLookup (v : Json) (k : String) : Option Json :=
  match v with
  | .obj fs => (fs.find? fun p => p.1 == k).map fun p => p.2
  | _ => none

/-- Python `v[k]` for a string literal key `k`: dict lookup raising `KeyError`
when absent, `TypeError` on every non-dict value (list/str indices must be
integers; numbers and `None` are not subscriptable). -/
def pyGetItem (v : Json) (k : String) : Except PyExc Json :=
  match v with
  | .obj _ =>
    match jLookup v k with
    | some w => .ok w
    | none => .error .keyError
  | _ => .error .typeError

/-- Python `v[i]` for an integer index: list indexing raising `IndexError` out
of bounds, 1-character string for strings, `KeyError` for dicts (our dict
keys are all strings, so an integer key is never present), `TypeError`
otherwise. -/
def pyIndex (v : Json) (i : Nat) : Except PyExc Json :=
  match v with
  | .arr xs =>
    match xs.get? i with
    | some x => .ok x
    | none => .error .indexError
  | .obj _ => .error .keyError
  | .str s =>
    match s.data.get? i with
    | some c => .ok (.str (String.mk [c]))
    | none => .error .indexError
  | _ => .error .typeError

/-- Python `v.get(k, d)`: only dicts have `.get`; everything else raises
`AttributeError`. -/
def pyGet (v : Json) (k : String) (d : Json) : Except PyExc Json :=
  match v with
  | .obj _ => .ok ((jLookup v k).getD d)
  | _ => .error .attributeError

/-- Python substring test `sub in s` (empty needle is always contained). -/
def strContains (s sub : String) : Bool :=
  if sub = "" then true else (s.splitOn sub).length > 1

/-- Python `k in v` for a string `k`: key test for dicts, substring test for
strings, element test for lists, `TypeError` otherwise. -/
def pyContains (k : String) (v : Json) : Except PyExc Bool :=
  match v with
  | .obj _ => .ok (jLookup v k).isSome
  | .str s => .ok (strContains s k)
  | .arr xs => .ok (xs.any fun x => match x with | .str t => t == k | _ => false)
  | _ => .error .typeError

/-- Python `for x in v`: lists yield elements, dicts yield their keys,
strings yield 1-character strings, everything else raises `TypeError`. -/
def pyIter (v : Json) : Except PyExc (List Json) :=
  match v with
  | .arr xs => .ok xs
  | .obj fs => .ok (fs.map fun p => Json.str p.1)
  | .str s => .ok (s.data.map fun c => Json.str (String.mk [c]))
  | _ => .error .typeError

/-- Python `str(v)` for the scalar values that can reach an f-string in the
embedded code. -/
def pyStrOf : Json → String
  | .str s => s
  | .num n => toString n
  | .bool true => "True"
  | .bool false => "False"
  | .null => "None"
  | _ => ""

/-- `json.loads`: external standard-library decoder, returning the decoded
value or the message of the `json.JSONDecodeError` it raises. -/
abbrev JsonDec := String → Except String Json

/-- A registered tool handler (`register_tool_handler`): external caller code
receiving the decoded keyword-argument set and the 0-based attempt number
(so that a handler may fail on early attempts and succeed later), returning
a result payload or the message of the exception it raises. -/
abbrev Handler := Json → Nat → Except String Json

/-- Looking up `tool_name` in the `self.tool_handlers` dict: string keys hit
the table, other hashable scalars simply miss, unhashable values (lists,
dicts) raise `TypeError`. -/
def handlerLookup (handlers : String → Option Handler) : Json → Except PyExc (Option Handler)
  | .str s => .ok (handlers s)
  | .num _ => .ok none
  | .bool _ => .ok none
  | .null => .ok none
  | .arr _ => .error .typeError
  | .obj _ => .error .typeError

/-- The success dict built by `_execute_tool_call` (line 175). -/
def successResult (tid tname r : Json) : Json :=
  .obj [("tool_call_id", tid), ("tool_name", tname), ("success", .bool true), ("result", r)]

/-- The failure dict built by `_execute_tool_call` (lines 153, 162, 183). -/
def errorResult (tid tname : Json) (e : String) : Json :=
  .obj [("tool_call_id", tid), ("tool_name", tname), ("success", .bool false), ("error", .str e)]

/-- Effect trace of one `_execute_tool_call`: how many times the handler was
invoked and the durations passed to `time.sleep`, in order. -/
structure ExecLog where
  invocations : Nat
  sleeps : List Nat
deriving DecidableEq

/-- The retry loop of `_execute_tool_call` (lines 172-189):

    for attempt in range(max_retries):
        try:
            result = handler(**arguments)
            return {..., "success": True, "result": result}
        except Exception as e:
            if attempt == max_retries - 1:
                return {..., "success": False, "error": str(e)}
            time.sleep(2 ** attempt)

`remaining` is the structural fuel `max_retries - attempt`; the Python test
`attempt == max_retries - 1` is exactly `remaining = attempt + 1`, i.e. the
pattern `remaining+1` with `remaining = 0`.  Falling off the loop (only
possible when `max_retries = 0`) returns Python `None` (`Json.null`). -/
def retryLoop (h : Nat → Except String Json) (tid tname : Json) :
    Nat → Nat → Json × ExecLog
  | 0, _ => (Json.null, ⟨0, []⟩)
  | remaining + 1, attempt =>
    match h attempt with
    | .ok r => (successResult tid tname r, ⟨1, []⟩)
    | .error e =>
      if remaining = 0 then
        (errorResult tid tname e, ⟨1, []⟩)
      else
        let p := retryLoop h tid tname remaining (attempt + 1)
        (p.1, ⟨p.2.invocations + 1, (2 ^ attempt) :: p.2.sleeps⟩)

/-- `AgentToolClient._execute_tool_call` (lines 145-189), with the sleep and
invocation effects made explicit in the returned `ExecLog`.

    tool_name = tool_call["function"]["name"]
    tool_id = tool_call.get("id", "")
    try:
        arguments = json.loads(tool_call["function"]["arguments"])
    except json.JSONDecodeError as e:
        return {..., "success": False, "error": f"Failed to parse ..."}
    if tool_name not in self.tool_handlers:
        return {..., "success": False, "error": f"No handler ..."}
    handler = self.tool_handlers[tool_name]
    <retry loop>

Only `json.JSONDecodeError` is caught around the decode; a `KeyError` from a
missing `"function"`/`"name"`/`"arguments"` field, or a `TypeError` from a
non-string payload, propagates to the caller. -/
def execute_tool_call (dec : JsonDec) (handlers : String → Option Handler)
    (tool_call : Json) (max_retries : Nat) : Except PyExc (Json × ExecLog) := do
  let fn ← pyGetItem tool_call "function"
  let tname ← pyGetItem fn "name"
  let tid ← pyGet tool_call "id" (.str "")
  let rawArgs ← pyGetItem fn "arguments"
  match rawArgs with
  | .str s =>
    match dec s with
    | .error msg =>
      pure (errorResult tid tname ("Failed to parse tool arguments: " ++ msg), ⟨0, []⟩)
    | .ok args => do
      let hOpt ← handlerLookup handlers tname
      match hOpt with
      | none =>
        pure (errorResult tid tname ("No handler registered for tool: " ++ pyStrOf tname), ⟨0, []⟩)
      | some h => pure (retryLoop (h args) tid tname max_retries 0)
  | _ => .error .typeError

/-- The body of the `for tool_call in tool_calls` loop of `handle_tool_calls`
(lines 139-141): each call is executed in sequence and its result appended;
an exception from `_execute_tool_call` propagates, discarding the list.  The
`ExecLog` effects of the individual calls are not observed at this level. -/
def runCalls (dec : JsonDec) (handlers : String → Option Handler) (max_retries : Nat) :
    List Json → Except PyExc (List Json)
  | [] => pure []
  | tc :: rest => do
    let r ← execute_tool_call dec handlers tc max_retries
    let rs ← runCalls dec handlers max_retries rest
    pure (r.1 :: rs)

/-- `AgentToolClient.handle_tool_calls` (lines 111-143):

    results = []
    try:
        message = response["choices"][0]["message"]
    except (KeyError, IndexError):
        return results
    if "tool_calls" not in message:
        return results
    tool_calls = message.get("tool_calls", [])
    for tool_call in tool_calls:
        results.append(self._execute_tool_call(tool_call, max_retries))
    return results

Only `KeyError` and `IndexError` are caught around the message extraction;
any other exception, and any exception from `_execute_tool_call`,
propagates. -/
def handle_tool_calls (dec : JsonDec) (handlers : String → Option Handler)
    (response : Json) (max_retries : Nat) : Except PyExc (List Json) :=
  match (do
      let cs ← pyGetItem response "choices"
      let c0 ← pyIndex cs 0
      pyGetItem c0 "message" : Except PyExc Json) with
  | .error .keyError => pure []
  | .error .indexError => pure []
  | .error e => .error e
  | .ok message => do
    let b ← pyContains "tool_calls" message
    if b then do
      let tcs ← pyGet message "tool_calls" (.arr [])
      let calls ← pyIter tcs
      runCalls dec handlers max_retries calls
    else pure []

/-- `line.startswith('data: ')`-style test, computed on the character list. -/
def strStarts (s p : String) : Bool :=
  p.data.isPrefixOf s.data

/-- `line[n:]` on a string. -/
def strDrop (s : String) (n : Nat) : String :=
  String.mk (s.data.drop n)

/-- `AgentToolClient._stream_response` (lines 101-109), on the already
byte-decoded lines of the HTTP response:

    for line in response.iter_lines():
        if line:
            line = line.decode('utf-8')
            if line.startswith('data: '):
                data = line[6:]
                if data != '[DONE]':
                    yield json.loads(data)

The generator yields the decoded fragments in order; a `json.JSONDecodeError`
raised by a malformed prefixed payload ends the iteration with an exception.
The result is the list of yielded elements together with the exception, if
any, that terminated iteration early. -/
def stream_response (dec : JsonDec) : List String → List Json × Option PyExc
  | [] => ([], none)
  | line :: rest =>
    if line = "" then stream_response dec rest
    else if strStarts line "data: " then
      let data := strDrop line 6
      if data = "[DONE]" then stream_response dec rest
      else
        match dec data with
        | .ok j =>
          let p := stream_response dec rest
          (j :: p.1, p.2)
        | .error _ => ([], some .valueError)
    else stream_response dec rest

/-- A handler in `ToolRegistry.handlers` (`tool_integration.py`): external
caller code receiving the decoded argument dict and returning a payload or
the message of the exception it raises. -/
abbrev RHandler := Json → Except String Json

/-- `ToolRegistry.execute_tool` (`tool_integration.py` lines 78-104):

    key = f"{agent}:{tool_name}"
    if key not in self.handlers:
        return {"success": False, "error": ..., "available_handlers": [...]}
    try:
        handler = self.handlers[key]
        result = handler(**arguments)
        return {"success": True, "result": result, "tool": ..., "agent": ...}
    except Exception as e:
        return {"success": False, "error": str(e), "tool": ..., "agent": ...}

The registry dict is modelled as an association list keyed by
`agent ++ ":" ++ tool_name` (keys unique by construction of `register_handler`). -/
def execute_tool (handlersR : List (String × RHandler)) (agent tool_name : String)
    (arguments : Json) : Json :=
  let key := agent ++ ":" ++ tool_name
  match (handlersR.find? fun p => p.1 == key).map (fun p => p.2) with
  | none =>
    Json.obj [("success", .bool false),
              ("error", .str ("No handler registered for " ++ key)),
              ("available_handlers", .arr (handlersR.map fun p => .str p.1))]
  | some handler =>
    match handler arguments with
    | .ok result =>
      Json.obj [("success", .bool true), ("result", result),
                ("tool", .str tool_name), ("agent", .str agent)]
    | .error e =>
      Json.obj [("success", .bool false), ("error", .str e),
                ("tool", .str tool_name), ("agent", .str agent)]

/-- The assistant message appended by `chat_with_tools` (lines 256-260). -/
def assistantMessage (content tcs : Json) : Json :=
  .obj [("role", .str "assistant"), ("content", content), ("tool_calls", tcs)]

/-- The tool-role message appended by `chat_with_tools` for one tool result
(lines 266-272); `enc` is `json.dumps`. -/
def toolMessage (enc : Json → String) (tid tname : Json) (r : Json) : Json :=
  .obj [("role", .str "tool"), ("tool_call_id", tid), ("name", tname),
        ("content", .str (enc r))]

/-- The `for result in tool_results` loop of `chat_with_tools` (lines 266-272):
each result dict is read back (`result["tool_call_id"]`, `result["tool_name"]`
may raise) and turned into one tool-role message, in order. -/
def toolMessages (enc : Json → String) : List Json → Except PyExc (List Json)
  | [] => pure []
  | r :: rest => do
    let tid ← pyGetItem r "tool_call_id"
    let tname ← pyGetItem r "tool_name"
    let rs ← toolMessages enc rest
    pure (toolMessage enc tid tname r :: rs)

/-- One iteration body of the `while` loop of `chat_with_tools`
(lines 246-272), given the response of this iteration's send.  Returns
`none` when the loop `break`s (no `"tool_calls"` field on the message),
`some app` with the messages to append when the loop continues:

    choice = response.get("choices", [{}])[0]
    message = choice.get("message", {})
    if "tool_calls" not in message:
        break
    messages.append({"role": "assistant", "content": message.get("content", ""),
                     "tool_calls": message.get("tool_calls", [])})
    tool_results = self.handle_tool_calls(response)
    for result in tool_results:
        messages.append({"role": "tool", "tool_call_id": result["tool_call_id"],
                         "name": result["tool_name"], "content": json.dumps(result)})

`handle_tool_calls` is called with its default `max_retries = 3`.  The
appended messages depend only on the response, so they are computed once
here and appended by the loop. -/
def turnAppends (dec : JsonDec) (enc : Json → String)
    (handlers : String → Option Handler) (response : Json) :
    Except PyExc (Option (List Json)) := do
  let choices ← pyGet response "choices" (.arr [.obj []])
  let choice ← pyIndex choices 0
  let message ← pyGet choice "message" (.obj [])
  let b ← pyContains "tool_calls" message
  if b then do
    let content ← pyGet message "content" (.str "")
    let tcs ← pyGet message "tool_calls" (.arr [])
    let results ← handle_tool_calls dec handlers response 3
    let toolMsgs ← toolMessages enc results
    pure (some (assistantMessage content tcs :: toolMsgs))
  else pure none

/-- The loop state of `chat_with_tools`: the growing message list, the
iteration counter (= number of sends performed so far) and the last response
obtained (`final_response`, initially Python `None`). -/
structure ChatState where
  messages : List Json
  iteration : Nat
  final_response : Json

/-- The `while iteration < max_iterations` loop of `chat_with_tools`
(lines 234-272), by structural recursion on the fuel
`max_iterations - iteration` (the loop adds 1 to `iteration` per round, so
the fuel is exactly the number of remaining rounds).  `oracle k` is the
response returned by the `chat_completion` call of the `(k+1)`-th send. -/
def chatLoop (dec : JsonDec) (enc : Json → String)
    (handlers : String → Option Handler) (oracle : Nat → Json) :
    Nat → ChatState → Except PyExc ChatState
  | 0, st => .ok st
  | remaining + 1, st =>
    let response := oracle st.iteration
    match turnAppends dec enc handlers response with
    | .error e => .error e
    | .ok none => .ok ⟨st.messages, st.iteration + 1, response⟩
    | .ok (some app) =>
      chatLoop dec enc handlers oracle remaining
        ⟨st.messages ++ app, st.iteration + 1, response⟩

/-- `AgentToolClient.chat_with_tools` (lines 191-279):

    messages = conversation_history or []
    if system_message:
        messages.insert(0, {"role": "system", "content": system_message})
    messages.append({"role": "user", "content": user_message})
    iteration = 0
    final_response = None
    while iteration < max_iterations:
        iteration += 1
        response = self.chat_completion(...)
        final_response = response
        <loop body, see turnAppends>
    return {"success": True, "iterations": iteration,
            "final_response": final_response, "conversation": messages}

Transport-level behaviour of `chat_completion` is external; a run in which
every send returns a response (no transport exception) is modelled by the
response oracle. -/
def chat_with_tools (dec : JsonDec) (enc : Json → String)
    (handlers : String → Option Handler) (oracle : Nat → Json)
    (user_message : String) (system_message : Option String)
    (conversation_history : List Json) (max_iterations : Nat) :
    Except PyExc Json := do
  let msgs0 :=
    match system_message with
    | some s => Json.obj [("role", .str "system"), ("content", .str s)] :: conversation_history
    | none => conversation_history
  let messages := msgs0 ++ [Json.obj [("role", .str "user"), ("content", .str user_message)]]
  let st ← chatLoop dec enc handlers oracle max_iterations ⟨messages, 0, Json.null⟩
  pure (Json.obj [("success", .bool true),
                  ("iterations", .num (Int.ofNat st.iteration)),
                  ("final_response", st.final_response),
                  ("conversation", .arr st.messages)])

/-- A scalar value usable as a Python dict key (hashable). -/
def hashableName : Json → Bool
  | .str _ => true
  | .num _ => true
  | .bool _ => true
  | .null => true
  | _ => false

/-- A structurally well-formed tool-call entry: an object whose `"function"`
field is an object carrying a hashable `"name"` and a string `"arguments"`
payload — exactly the shape under which `_execute_tool_call` cannot raise. -/
def wfEntry (tc : Json) : Bool :=
  match jLookup tc "function" with
  | some fn =>
    (match jLookup fn "name" with
     | some n => hashableName n
     | none => false)
    &&
    (match jLookup fn "arguments" with
     | some (.str _) => true
     | _ => false)
  | none => false

/-- A response on which `handle_tool_calls` cannot raise: an object whose
`"choices"` value, if any, is a dict, an empty list, or a list whose first
element is an object whose `"message"` value, if any, is an object whose
`"tool_calls"` value, if any, is a list of well-formed entries. -/
def wfResponse (response : Json) : Bool :=
  match response with
  | .obj _ =>
    match jLookup response "choices" with
    | none => true
    | some (.obj _) => true
    | some (.arr []) => true
    | some (.arr (c :: _)) =>
      (match c with
       | .obj _ =>
         match jLookup c "message" with
         | none => true
         | some (.obj mf) =>
           (match jLookup (.obj mf) "tool_calls" with
            | none => true
            | some (.arr cs) => cs.all wfEntry
            | some _ => false)
         | some _ => false
       | _ => false)
    | some _ => false
  | _ => false

/-- The first choice's message carries a `"tool_calls"` field (the branch
condition under which `chat_with_tools` executes tools instead of breaking). -/
def hasToolCalls (response : Json) : Bool :=
  match response with
  | .obj _ =>
    match jLookup response "choices" with
    | some (.arr (c :: _)) =>
      (match c with
       | .obj _ =>
         match jLookup c "message" with
         | some (.obj mf) => (jLookup (.obj mf) "tool_calls").isSome
         | _ => false
       | _ => false)
    | _ => false
  | _ => false

/-- The tool-call entries of a response, in extraction order: the value of
`response["choices"][0]["message"].get("tool_calls", [])` as the Tool Call
Extractor reads it. -/
def extractedCalls (response : Json) : Except PyExc (List Json) := do
  let cs ← pyGetItem response "choices"
  let c0 ← pyIndex cs 0
  let m ← pyGetItem c0 "message"
  let tcs ← pyGet m "tool_calls" (.arr [])
  pyIter tcs

/-- The call identifier of a tool-call entry as `_execute_tool_call` reads it:
`tool_call.get("id", "")`. -/
def callIdOf (tc : Json) : Json :=
  (jLookup tc "id").getD (.str "")

/-- A result record populating exactly one of its `result`/`error` fields,
as demanded of a ToolResult: a true success flag together with a result and
no error, or a false success flag together with an error and no result. -/
def exclusiveResult (r : Json) : Prop :=
  (jLookup r "success" = some (.bool true) ∧ (jLookup r "result").isSome ∧
    jLookup r "error" = none) ∨
  (jLookup r "success" = some (.bool false) ∧ (jLookup r "error").isSome ∧
    jLookup r "result" = none)

/-! Concrete fixtures used by witness and counterexample theorems. -/

/-- A concrete `json.loads` instance: decodes the payload `"1"`, rejects
everything else with a decode error. -/
def decNum : JsonDec := fun s => if s = "1" then .ok (.num 1) else .error "bad"

/-- A client with no registered handlers. -/
def handlersNone : String → Option Handler := fun _ => none

/-- A handler that raises `"boom"` on attempts 0 and 1 and returns `7` on
attempt 2. -/
def flaky : Handler := fun _ attempt => if attempt < 2 then .error "boom" else .ok (.num 7)

/-- A handler table registering `flaky` under the name `"t"`. -/
def handlersFlaky : String → Option Handler := fun n => if n = "t" then some flaky else none

/-- A well-formed tool-call entry for tool `"t"` whose payload decodes. -/
def tcGood : Json :=
  .obj [("id", .str "c1"), ("function", .obj [("name", .str "t"), ("arguments", .str "1")])]

/-- A well-formed tool-call entry whose raw payload `"?"` is not valid JSON. -/
def tcBadArgs : Json :=
  .obj [("id", .str "c2"), ("function", .obj [("name", .str "t"), ("arguments", .str "?")])]

/-- C4: for every tool-call request whose raw argument payload fails to
decode, `_execute_tool_call` returns a failed ToolResult (success = false,
carrying an error string) without invoking any handler and without any
backoff sleep, for every `max_retries` value and independently of which
handlers are registered. -/
theorem execute_tool_call_undecodable_args_fails_fast
    (dec : JsonDec) (handlers : String → Option Handler)
    (tc fn tname tid : Json) (s msg : String) (mr : Nat)
    (hfn : pyGetItem tc "function" = .ok fn)
    (hname : pyGetItem fn "name" = .ok tname)
    (hid : pyGet tc "id" (.str "") = .ok tid)
    (hargs : pyGetItem fn "arguments" = .ok (.str s))
    (hdec : dec s = .error msg) :
    execute_tool_call dec handlers tc mr =
      .ok (errorResult tid tname ("Failed to parse tool arguments: " ++ msg), ⟨0, []⟩) := by
  simp [execute_tool_call, hfn, hname, hid, hargs, hdec, bind, Except.bind, pure, Except.pure]

/-- Witness for C4 at a concrete input: the payload `"?"` does not decode, the
returned ToolResult is the decode-failure record with zero handler
invocations and zero sleeps. -/
theorem execute_tool_call_undecodable_args_fails_fast_witness :
    execute_tool_call decNum handlersFlaky tcBadArgs 3 =
      .ok (errorResult (.str "c2") (.str "t") "Failed to parse tool arguments: bad", ⟨0, []⟩) :=
  execute_tool_call_undecodable_args_fails_fast decNum handlersFlaky tcBadArgs
    (.obj [("name", .str "t"), ("arguments", .str "?")]) (.str "t") (.str "c2") "?" "bad" 3
    rfl rfl rfl rfl rfl

/-- C2: for a tool-call request with decodable arguments and a registered
handler that raises on its first two invocations and succeeds on the third,
`_execute_tool_call` with `max_retries = 3` returns the success ToolResult
carrying the third attempt's value, invokes the handler exactly 3 times
(never a fourth), and sleeps exactly 1 then 2 time units
(`2^attempt` for the failed attempts 0 and 1). -/
theorem execute_tool_call_retry_succeeds_third_attempt
    (dec : JsonDec) (handlers : String → Option Handler)
    (tc fn tid : Json) (name s : String) (args : Json) (h : Handler)
    (e0 e1 : String) (v : Json)
    (hfn : pyGetItem tc "function" = .ok fn)
    (hname : pyGetItem fn "name" = .ok (.str name))
    (hid : pyGet tc "id" (.str "") = .ok tid)
    (hargs : pyGetItem fn "arguments" = .ok (.str s))
    (hdec : dec s = .ok args)
    (hh : handlers name = some h)
    (ha0 : h args 0 = .error e0)
    (ha1 : h args 1 = .error e1)
    (ha2 : h args 2 = .ok v) :
    execute_tool_call dec handlers tc 3 =
      .ok (successResult tid (.str name) v, ⟨3, [1, 2]⟩) := by
  simp [execute_tool_call, hfn, hname, hid, hargs, hdec, handlerLookup, hh,
    retryLoop, ha0, ha1, ha2, bind, Except.bind, pure, Except.pure]

/-- Witness for C2 at a concrete input: the `flaky` handler fails twice and
returns `7` on the third attempt; the trace shows 3 invocations and sleeps
`[1, 2]`. -/
theorem execute_tool_call_retry_succeeds_third_attempt_witness :
    execute_tool_call decNum handlersFlaky tcGood 3 =
      .ok (successResult (.str "c1") (.str "t") (.num 7), ⟨3, [1, 2]⟩) :=
  execute_tool_call_retry_succeeds_third_attempt decNum handlersFlaky tcGood
    (.obj [("name", .str "t"), ("arguments", .str "1")]) (.str "c1") "t" "1" (.num 1)
    flaky "boom" "boom" (.num 7) rfl rfl rfl rfl rfl rfl rfl rfl rfl

/-- C9: for a tool-call request with decodable arguments and a registered
handler, `_execute_tool_call` with `max_retries = 0` never invokes the
handler and returns Python `None` rather than a ToolResult record: the
`for attempt in range(0)` loop body never runs and the function falls off
its end. -/
theorem execute_tool_call_zero_retries_returns_none
    (dec : JsonDec) (handlers : String → Option Handler)
    (tc fn tid : Json) (name s : String) (args : Json) (h : Handler)
    (hfn : pyGetItem tc "function" = .ok fn)
    (hname : pyGetItem fn "name" = .ok (.str name))
    (hid : pyGet tc "id" (.str "") = .ok tid)
    (hargs : pyGetItem fn "arguments" = .ok (.str s))
    (hdec : dec s = .ok args)
    (hh : handlers name = some h) :
    execute_tool_call dec handlers tc 0 = .ok (Json.null, ⟨0, []⟩) := by
  simp [execute_tool_call, hfn, hname, hid, hargs, hdec, handlerLookup, hh, retryLoop,
    bind, Except.bind, pure, Except.pure]

/-- Witness for C9 at a concrete input: with `max_retries = 0` the registered
`flaky` handler is never invoked and the call returns `None` with an empty
effect trace. -/
theorem execute_tool_call_zero_retries_returns_none_witness :
    execute_tool_call decNum handlersFlaky tcGood 0 = .ok (Json.null, ⟨0, []⟩) :=
  execute_tool_call_zero_retries_returns_none decNum handlersFlaky tcGood
    (.obj [("name", .str "t"), ("arguments", .str "1")]) (.str "c1") "t" "1" (.num 1)
    flaky rfl rfl rfl rfl rfl rfl

/-! Helper lemmas about the embedded Python primitives and result shapes. -/

/-- A successful dict lookup forces the value to be a dict. -/
theorem jLookup_some_obj {v : Json} {k : String} {w : Json}
    (h : jLookup v k = some w) : ∃ fs, v = Json.obj fs := by
  cases v <;> simp [jLookup] at h
  case obj fs => exact ⟨fs, rfl⟩

/-- Inversion of a successful `v[k]`: `v` is a dict and the lookup hits. -/
theorem pyGetItem_obj {v : Json} {k : String} {w : Json}
    (h : pyGetItem v k = .ok w) : jLookup v k = some w ∧ ∃ fs, v = Json.obj fs := by
  cases v <;> simp only [pyGetItem] at h <;> try exact absurd h (by simp)
  case obj fs =>
    cases hj : jLookup (Json.obj fs) k with
    | none => rw [hj] at h; exact absurd h (by simp)
    | some w' => rw [hj] at h; cases h; exact ⟨rfl, fs, rfl⟩

/-- A successful `v[k]` makes `v.get(k, d)` return the same value. -/
theorem pyGetItem_pyGet {v : Json} {k : String} {w d : Json}
    (h : pyGetItem v k = .ok w) : pyGet v k d = .ok w := by
  obtain ⟨hj, fs, rfl⟩ := pyGetItem_obj h
  simp [pyGet, hj]

/-- Inversion of a successful `v.get(k, d)`. -/
theorem pyGet_obj {v : Json} {k : String} {w d : Json}
    (h : pyGet v k d = .ok w) : (∃ fs, v = Json.obj fs) ∧ w = (jLookup v k).getD d := by
  cases v with
  | obj fs =>
    simp only [pyGet] at h
    cases h
    exact ⟨⟨fs, rfl⟩, rfl⟩
  | null => simp [pyGet] at h
  | bool b => simp [pyGet] at h
  | num n => simp [pyGet] at h
  | str s => simp [pyGet] at h
  | arr xs => simp [pyGet] at h

/-- The retry loop yields `None` (fuel exhausted from the start), a success
record, or a failure record — always tagged with the given id and name. -/
theorem retryLoop_cases (h : Nat → Except String Json) (tid tname : Json) :
    ∀ fuel attempt, (retryLoop h tid tname fuel attempt).1 = Json.null ∨
      (∃ v, (retryLoop h tid tname fuel attempt).1 = successResult tid tname v) ∨
      (∃ e, (retryLoop h tid tname fuel attempt).1 = errorResult tid tname e) := by
  intro fuel
  induction fuel with
  | zero => intro attempt; left; rfl
  | succ f ih =>
    intro attempt
    simp only [retryLoop]
    cases h attempt with
    | ok r => right; left; exact ⟨r, rfl⟩
    | error e =>
      by_cases hf : f = 0
      · subst hf; right; right; exact ⟨e, by simp⟩
      · simp only [hf, if_false]
        rcases ih (attempt + 1) with h0 | h1 | h2
        · left; exact h0
        · right; left; exact h1
        · right; right; exact h2

/-- With at least one permitted attempt, the retry loop returns a success or
failure record (never `None`). -/
theorem retryLoop_pos (h : Nat → Except String Json) (tid tname : Json) :
    ∀ fuel attempt, 0 < fuel →
      (∃ v, (retryLoop h tid tname fuel attempt).1 = successResult tid tname v) ∨
      (∃ e, (retryLoop h tid tname fuel attempt).1 = errorResult tid tname e) := by
  intro fuel
  induction fuel with
  | zero => intro attempt hf; exact absurd hf (by simp)
  | succ f ih =>
    intro attempt _
    simp only [retryLoop]
    cases h attempt with
    | ok r => left; exact ⟨r, rfl⟩
    | error e =>
      by_cases hf : f = 0
      · subst hf; right; exact ⟨e, by simp⟩
      · simp only [hf, if_false]
        rcases ih (attempt + 1) (Nat.pos_of_ne_zero hf) with h1 | h2
        · left; exact h1
        · right; exact h2

/-- A success record populates `result` and not `error`. -/
theorem exclusive_successResult (tid tname v : Json) :
    exclusiveResult (successResult tid tname v) :=
  Or.inl ⟨rfl, rfl, rfl⟩

/-- A failure record populates `error` and not `result`. -/
theorem exclusive_errorResult (tid tname : Json) (e : String) :
    exclusiveResult (errorResult tid tname e) :=
  Or.inr ⟨rfl, rfl, rfl⟩

/-- The retry loop returns `None` only when it was given no attempts. -/
theorem retryLoop_null_imp (h : Nat → Except String Json) (tid tname : Json) :
    ∀ fuel attempt, (retryLoop h tid tname fuel attempt).1 = Json.null → fuel = 0 := by
  intro fuel
  induction fuel with
  | zero => intro _ _; rfl
  | succ f ih =>
    intro attempt hnull
    exfalso
    simp only [retryLoop] at hnull
    cases hh : h attempt with
    | ok r => rw [hh] at hnull; simp [successResult] at hnull
    | error e =>
      rw [hh] at hnull
      by_cases hf : f = 0
      · rw [hf] at hnull; simp [errorResult] at hnull
      · simp only [hf, if_false] at hnull
        exact hf (ih (attempt + 1) hnull)

/-- Every non-`None` value returned by `_execute_tool_call` is a success or
failure record tagged with the request's call id (`tool_call.get("id", "")`). -/
theorem execute_ok_forms {dec : JsonDec} {handlers : String → Option Handler}
    {tc : Json} {mr : Nat} {r : Json} {log : ExecLog}
    (hex : execute_tool_call dec handlers tc mr = .ok (r, log)) :
    (r = Json.null ∧ mr = 0) ∨ (∃ tname v, r = successResult (callIdOf tc) tname v) ∨
      (∃ tname e, r = errorResult (callIdOf tc) tname e) := by
  cases hfn : pyGetItem tc "function" with
  | error e => simp [execute_tool_call, hfn, bind, Except.bind] at hex
  | ok fn =>
  cases hname : pyGetItem fn "name" with
  | error e => simp [execute_tool_call, hfn, hname, bind, Except.bind] at hex
  | ok tname =>
  cases hid : pyGet tc "id" (Json.str "") with
  | error e => simp [execute_tool_call, hfn, hname, hid, bind, Except.bind] at hex
  | ok tid =>
  have htid : tid = callIdOf tc := (pyGet_obj hid).2
  subst htid
  cases hargs : pyGetItem fn "arguments" with
  | error e => simp [execute_tool_call, hfn, hname, hid, hargs, bind, Except.bind] at hex
  | ok rawArgs =>
  cases rawArgs with
  | str s =>
    cases hdec : dec s with
    | error msg =>
      have heq : execute_tool_call dec handlers tc mr =
          .ok (errorResult (callIdOf tc) tname
            ("Failed to parse tool arguments: " ++ msg), ⟨0, []⟩) := by
        simp [execute_tool_call, hfn, hname, hid, hargs, hdec, bind, Except.bind,
          pure, Except.pure]
      rw [heq] at hex
      simp only [Except.ok.injEq, Prod.mk.injEq] at hex
      obtain ⟨hr, -⟩ := hex
      exact Or.inr (Or.inr ⟨tname, _, hr.symm⟩)
    | ok args =>
      cases tname with
      | str nm =>
        cases hh : handlers nm with
        | none =>
          have heq : execute_tool_call dec handlers tc mr =
              .ok (errorResult (callIdOf tc) (.str nm)
                ("No handler registered for tool: " ++ pyStrOf (.str nm)), ⟨0, []⟩) := by
            simp [execute_tool_call, hfn, hname, hid, hargs, hdec, handlerLookup, hh,
              bind, Except.bind, pure, Except.pure]
          rw [heq] at hex
          simp only [Except.ok.injEq, Prod.mk.injEq] at hex
          obtain ⟨hr, -⟩ := hex
          exact Or.inr (Or.inr ⟨.str nm, _, hr.symm⟩)
        | some hd =>
          have heq : execute_tool_call dec handlers tc mr =
              .ok (retryLoop (hd args) (callIdOf tc) (.str nm) mr 0) := by
            simp [execute_tool_call, hfn, hname, hid, hargs, hdec, handlerLookup, hh,
              bind, Except.bind, pure, Except.pure]
          rw [heq] at hex
          have hr : (retryLoop (hd args) (callIdOf tc) (.str nm) mr 0).1 = r := by
            have h2 := congrArg (fun p => Prod.fst p) (Except.ok.inj hex)
            simpa using h2
          rcases retryLoop_cases (hd args) (callIdOf tc) (.str nm) mr 0 with h0 | ⟨v, hv⟩ | ⟨e, he⟩
          · left
            refine ⟨by rw [← hr, h0], ?_⟩
            exact retryLoop_null_imp (hd args) (callIdOf tc) (.str nm) mr 0 h0
          · right; left; exact ⟨.str nm, v, by rw [← hr, hv]⟩
          · right; right; exact ⟨.str nm, e, by rw [← hr, he]⟩
      | num n =>
        have heq : execute_tool_call dec handlers tc mr =
            .ok (errorResult (callIdOf tc) (.num n)
              ("No handler registered for tool: " ++ pyStrOf (.num n)), ⟨0, []⟩) := by
          simp [execute_tool_call, hfn, hname, hid, hargs, hdec, handlerLookup,
            bind, Except.bind, pure, Except.pure]
        rw [heq] at hex
        simp only [Except.ok.injEq, Prod.mk.injEq] at hex
        obtain ⟨hr, -⟩ := hex
        exact Or.inr (Or.inr ⟨.num n, _, hr.symm⟩)
      | bool b =>
        have heq : execute_tool_call dec handlers tc mr =
            .ok (errorResult (callIdOf tc) (.bool b)
              ("No handler registered for tool: " ++ pyStrOf (.bool b)), ⟨0, []⟩) := by
          simp [execute_tool_call, hfn, hname, hid, hargs, hdec, handlerLookup,
            bind, Except.bind, pure, Except.pure]
        rw [heq] at hex
        simp only [Except.ok.injEq, Prod.mk.injEq] at hex
        obtain ⟨hr, -⟩ := hex
        exact Or.inr (Or.inr ⟨.bool b, _, hr.symm⟩)
      | null =>
        have heq : execute_tool_call dec handlers tc mr =
            .ok (errorResult (callIdOf tc) .null
              ("No handler registered for tool: " ++ pyStrOf .null), ⟨0, []⟩) := by
          simp [execute_tool_call, hfn, hname, hid, hargs, hdec, handlerLookup,
            bind, Except.bind, pure, Except.pure]
        rw [heq] at hex
        simp only [Except.ok.injEq, Prod.mk.injEq] at hex
        obtain ⟨hr, -⟩ := hex
        exact Or.inr (Or.inr ⟨.null, _, hr.symm⟩)
      | arr xs =>
        simp [execute_tool_call, hfn, hname, hid, hargs, hdec, handlerLookup,
          bind, Except.bind] at hex
      | obj fs =>
        simp [execute_tool_call, hfn, hname, hid, hargs, hdec, handlerLookup,
          bind, Except.bind] at hex
  | null => simp [execute_tool_call, hfn, hname, hid, hargs, bind, Except.bind] at hex
  | bool b => simp [execute_tool_call, hfn, hname, hid, hargs, bind, Except.bind] at hex
  | num n => simp [execute_tool_call, hfn, hname, hid, hargs, bind, Except.bind] at hex
  | arr xs => simp [execute_tool_call, hfn, hname, hid, hargs, bind, Except.bind] at hex
  | obj fs => simp [execute_tool_call, hfn, hname, hid, hargs, bind, Except.bind] at hex

/-- C6: every ToolResult produced by tool execution populates exactly one of
the `result`/`error` fields: every non-`None` record returned by
`AgentToolClient._execute_tool_call` and every record returned by
`ToolRegistry.execute_tool` has `success = True` with a result payload and no
error string, or `success = False` with an error string and no result
payload. -/
theorem tool_results_populate_exactly_one :
    (∀ (dec : JsonDec) (handlers : String → Option Handler) (tc : Json) (mr : Nat)
      (r : Json) (log : ExecLog),
      execute_tool_call dec handlers tc mr = .ok (r, log) → r ≠ Json.null →
      exclusiveResult r) ∧
    (∀ (hs : List (String × RHandler)) (agent tool_name : String) (args : Json),
      exclusiveResult (execute_tool hs agent tool_name args)) := by
  constructor
  · intro dec handlers tc mr r log hex hr
    rcases execute_ok_forms hex with h0 | ⟨tname, v, hv⟩ | ⟨tname, e, he⟩
    · exact absurd h0.1 hr
    · rw [hv]; exact exclusive_successResult _ _ _
    · rw [he]; exact exclusive_errorResult _ _ _
  · intro hs agent tool_name args
    unfold execute_tool
    cases hfind : (hs.find? fun p => p.1 == agent ++ ":" ++ tool_name).map (fun p => p.2) with
    | none =>
      simp only [hfind]
      exact Or.inr ⟨rfl, rfl, rfl⟩
    | some handler =>
      simp only [hfind]
      cases handler args with
      | ok result => exact Or.inl ⟨rfl, rfl, rfl⟩
      | error e => exact Or.inr ⟨rfl, rfl, rfl⟩

/-- Witness for C6 at concrete inputs: the success record returned by
`_execute_tool_call` for the `flaky` handler, and the no-handler failure
record of an empty registry, each populate exactly one of result/error. -/
theorem tool_results_populate_exactly_one_witness :
    exclusiveResult (successResult (.str "c1") (.str "t") (.num 7)) ∧
    exclusiveResult (execute_tool [] "dev" "t" (.obj [])) :=
  ⟨tool_results_populate_exactly_one.1 decNum handlersFlaky tcGood 3
      (successResult (.str "c1") (.str "t") (.num 7)) ⟨3, [1, 2]⟩
      rfl (by simp [successResult]),
   tool_results_populate_exactly_one.2 [] "dev" "t" (.obj [])⟩

/-- C10: whenever `chat_with_tools` returns normally (no transport exception,
modelled by the oracle supplying every response), the returned record carries
`success = True` — regardless of whether the iteration ceiling was hit or any
executed tool call failed, so this field does not distinguish those
outcomes. -/
theorem chat_with_tools_reports_success
    (dec : JsonDec) (enc : Json → String) (handlers : String → Option Handler)
    (oracle : Nat → Json) (u : String) (sys : Option String) (hist : List Json)
    (n : Nat) (out : Json)
    (h : chat_with_tools dec enc handlers oracle u sys hist n = .ok out) :
    jLookup out "success" = some (.bool true) := by
  simp only [chat_with_tools, bind, Except.bind] at h
  split at h
  · exact absurd h (by simp)
  · simp only [pure, Except.pure, Except.ok.injEq] at h
    rw [← h]
    rfl

/-- A concrete `json.dumps` instance (the claims never inspect the encoded
text). -/
def enc0 : Json → String := fun _ => "enc"

/-- An oracle whose every response carries a (empty) `tool_calls` field, i.e.
the model requests tools on every turn. -/
def oracle0 : Nat → Json := fun _ =>
  .obj [("choices", .arr [.obj [("message",
    .obj [("content", .str "hi"), ("tool_calls", .arr [])])]])]

/-- An oracle whose every response is a plain assistant answer with no
`tool_calls` field. -/
def oracleDone : Nat → Json := fun _ =>
  .obj [("choices", .arr [.obj [("message", .obj [("content", .str "done")])]])]

/-- Witness for C10 at a concrete input: a one-turn conversation returns
normally and its record carries `success = True`. -/
theorem chat_with_tools_reports_success_witness :
    jLookup (Json.obj [("success", .bool true), ("iterations", .num 1),
      ("final_response", oracleDone 0),
      ("conversation", .arr [Json.obj [("role", .str "user"), ("content", .str "q")]])])
      "success" = some (.bool true) :=
  chat_with_tools_reports_success decNum enc0 handlersNone oracleDone "q" none [] 5 _ rfl

/-- C5 counterexample: the claim says the produced sequence terminates at the
sentinel line `data: [DONE]` with no elements emitted after it.  On the
stream whose first line is the sentinel and whose second line is `data: 1`,
that predicts the empty output; the decoder instead only skips the sentinel
line and emits the element decoded from the following line. -/
theorem stream_response_emits_after_sentinel :
    stream_response decNum ["data: [DONE]", "data: 1"] = ([Json.num 1], none) := rfl

/-- C5 (amended): lines not prefixed with `data: ` are ignored without error,
and the sentinel line `data: [DONE]` is never emitted as an element; however
the decoder does not terminate at the sentinel — it merely skips that line
and continues, so prefixed data lines after a sentinel are still decoded and
emitted. -/
theorem stream_response_skips_sentinel_and_unprefixed :
    (∀ (dec : JsonDec) (l : String) (rest : List String),
      strStarts l "data: " = false →
      stream_response dec (l :: rest) = stream_response dec rest) ∧
    (∀ (dec : JsonDec) (rest : List String),
      stream_response dec ("data: [DONE]" :: rest) = stream_response dec rest) := by
  constructor
  · intro dec l rest hl
    by_cases he : l = ""
    · simp [stream_response, he]
    · simp [stream_response, he, hl]
  · intro dec rest
    rfl

/-- Witness for the amended C5 at concrete inputs: an unprefixed line
contributes nothing, and the sentinel line is skipped with processing
continuing on the remaining lines. -/
theorem stream_response_skips_sentinel_and_unprefixed_witness :
    stream_response decNum ["ping", "data: 1"] = stream_response decNum ["data: 1"] ∧
    stream_response decNum ["data: [DONE]", "data: 1"] = stream_response decNum ["data: 1"] :=
  ⟨stream_response_skips_sentinel_and_unprefixed.1 decNum "ping" ["data: 1"] rfl,
   stream_response_skips_sentinel_and_unprefixed.2 decNum ["data: 1"]⟩

/-- C8: for every response whose first choice's message exists but has no
`tool_calls` field, `handle_tool_calls` returns the empty result list (for
every `max_retries`), and `chat_with_tools` driven by an oracle whose first
response is of that shape terminates after exactly one iteration, its record
reporting `iterations = 1` with that first response as `final_response`. -/
theorem chat_no_tool_calls_one_iteration
    (dec : JsonDec) (enc : Json → String) (handlers : String → Option Handler)
    (oracle : Nat → Json) (u : String) (sys : Option String) (hist : List Json)
    (n mr : Nat) (cs c0 m : Json)
    (hn : 0 < n)
    (h1 : pyGetItem (oracle 0) "choices" = .ok cs)
    (h2 : pyIndex cs 0 = .ok c0)
    (h3 : pyGetItem c0 "message" = .ok m)
    (h4 : pyContains "tool_calls" m = .ok false) :
    handle_tool_calls dec handlers (oracle 0) mr = .ok [] ∧
    chat_with_tools dec enc handlers oracle u sys hist n =
      .ok (Json.obj [("success", .bool true), ("iterations", .num 1),
        ("final_response", oracle 0),
        ("conversation", .arr ((match sys with
          | some s => Json.obj [("role", .str "system"), ("content", .str s)] :: hist
          | none => hist) ++
          [Json.obj [("role", .str "user"), ("content", .str u)]]))]) := by
  constructor
  · simp [handle_tool_calls, h1, h2, h3, h4, bind, Except.bind, pure, Except.pure]
  · have hturn : turnAppends dec enc handlers (oracle 0) = .ok none := by
      simp [turnAppends, pyGetItem_pyGet h1, h2, pyGetItem_pyGet h3, h4,
        bind, Except.bind, pure, Except.pure]
    cases n with
    | zero => exact absurd hn (by simp)
    | succ k =>
      simp [chat_with_tools, chatLoop, hturn, bind, Except.bind, pure, Except.pure]

/-- Witness for C8 at a concrete input: the `oracleDone` response has a
message without `tool_calls`; extraction yields no results and the
conversation stops after one iteration. -/
theorem chat_no_tool_calls_one_iteration_witness :
    handle_tool_calls decNum handlersNone (oracleDone 0) 3 = .ok [] ∧
    chat_with_tools decNum enc0 handlersNone oracleDone "q" none [] 5 =
      .ok (Json.obj [("success", .bool true), ("iterations", .num 1),
        ("final_response", oracleDone 0),
        ("conversation", .arr ((match (none : Option String) with
          | some s => Json.obj [("role", .str "system"), ("content", .str s)] :: ([] : List Json)
          | none => ([] : List Json)) ++
          [Json.obj [("role", .str "user"), ("content", .str "q")]]))]) :=
  chat_no_tool_calls_one_iteration decNum enc0 handlersNone oracleDone "q" none [] 5 3
    (.arr [.obj [("message", .obj [("content", .str "done")])]])
    (.obj [("message", .obj [("content", .str "done")])])
    (.obj [("content", .str "done")])
    (by decide) rfl rfl rfl rfl


/-- On a structurally well-formed tool-call entry, `_execute_tool_call` never
raises, whatever the decoder, handler table and retry budget. -/
theorem execute_wf_ok (dec : JsonDec) (handlers : String → Option Handler)
    (tc : Json) (mr : Nat) (hwf : wfEntry tc = true) :
    ∃ r log, execute_tool_call dec handlers tc mr = .ok (r, log) := by
  unfold wfEntry at hwf
  cases hfn : jLookup tc "function" with
  | none => rw [hfn] at hwf; simp at hwf
  | some fn =>
    rw [hfn] at hwf
    simp only [Bool.and_eq_true] at hwf
    obtain ⟨hwn, hwa⟩ := hwf
    obtain ⟨tfs, rfl⟩ := jLookup_some_obj hfn
    have hfn' : pyGetItem (Json.obj tfs) "function" = .ok fn := by simp [pyGetItem, hfn]
    cases hnm : jLookup fn "name" with
    | none => rw [hnm] at hwn; simp at hwn
    | some nv =>
      rw [hnm] at hwn
      obtain ⟨ffs, rfl⟩ := jLookup_some_obj hnm
      have hname' : pyGetItem (Json.obj ffs) "name" = .ok nv := by simp [pyGetItem, hnm]
      cases haw : jLookup (Json.obj ffs) "arguments" with
      | none => rw [haw] at hwa; simp at hwa
      | some av =>
        rw [haw] at hwa
        cases av with
        | str s =>
          have hargs' : pyGetItem (Json.obj ffs) "arguments" = .ok (.str s) := by
            simp [pyGetItem, haw]
          cases hdec : dec s with
          | error msg =>
            refine ⟨errorResult ((jLookup (Json.obj tfs) "id").getD (Json.str "")) nv
              ("Failed to parse tool arguments: " ++ msg), ⟨0, []⟩, ?_⟩
            simp [execute_tool_call, hfn', hname', hargs', hdec, pyGet,
              bind, Except.bind, pure, Except.pure]
          | ok args =>
            cases nv with
            | str nm =>
              cases hh : handlers nm with
              | none =>
                refine ⟨errorResult ((jLookup (Json.obj tfs) "id").getD (Json.str ""))
                  (.str nm) ("No handler registered for tool: " ++ pyStrOf (.str nm)),
                  ⟨0, []⟩, ?_⟩
                simp [execute_tool_call, hfn', hname', hargs', hdec,
                  handlerLookup, hh, pyGet, bind, Except.bind, pure, Except.pure]
              | some hd =>
                refine ⟨(retryLoop (hd args)
                    ((jLookup (Json.obj tfs) "id").getD (Json.str "")) (.str nm) mr 0).1,
                  (retryLoop (hd args)
                    ((jLookup (Json.obj tfs) "id").getD (Json.str "")) (.str nm) mr 0).2, ?_⟩
                simp [execute_tool_call, hfn', hname', hargs', hdec,
                  handlerLookup, hh, pyGet, bind, Except.bind, pure, Except.pure]
            | num n =>
              refine ⟨errorResult ((jLookup (Json.obj tfs) "id").getD (Json.str ""))
                (.num n) ("No handler registered for tool: " ++ pyStrOf (.num n)),
                ⟨0, []⟩, ?_⟩
              simp [execute_tool_call, hfn', hname', hargs', hdec,
                handlerLookup, pyGet, bind, Except.bind, pure, Except.pure]
            | bool b =>
              refine ⟨errorResult ((jLookup (Json.obj tfs) "id").getD (Json.str ""))
                (.bool b) ("No handler registered for tool: " ++ pyStrOf (.bool b)),
                ⟨0, []⟩, ?_⟩
              simp [execute_tool_call, hfn', hname', hargs', hdec,
                handlerLookup, pyGet, bind, Except.bind, pure, Except.pure]
            | null =>
              refine ⟨errorResult ((jLookup (Json.obj tfs) "id").getD (Json.str ""))
                .null ("No handler registered for tool: " ++ pyStrOf .null),
                ⟨0, []⟩, ?_⟩
              simp [execute_tool_call, hfn', hname', hargs', hdec,
                handlerLookup, pyGet, bind, Except.bind, pure, Except.pure]
            | arr xs => simp [hashableName] at hwn
            | obj fs => simp [hashableName] at hwn
        | null => simp at hwa
        | bool b => simp at hwa
        | num n => simp at hwa
        | arr xs => simp at hwa
        | obj fs => simp at hwa

/-- On a list of well-formed entries, the execution loop of
`handle_tool_calls` never raises. -/
theorem runCalls_wf_ok (dec : JsonDec) (handlers : String → Option Handler) (mr : Nat) :
    ∀ calls : List Json, (∀ tc ∈ calls, wfEntry tc = true) →
    ∃ rs, runCalls dec handlers mr calls = .ok rs := by
  intro calls
  induction calls with
  | nil => intro _; exact ⟨[], rfl⟩
  | cons tc rest ih =>
    intro hall
    obtain ⟨r, log, hex⟩ := execute_wf_ok dec handlers tc mr (hall tc (by simp))
    obtain ⟨rs, hrs⟩ := ih (fun x hx => hall x (by simp [hx]))
    exact ⟨r :: rs, by simp [runCalls, hex, hrs, bind, Except.bind, pure, Except.pure]⟩

/-- On a well-formed response, `handle_tool_calls` never raises. -/
theorem handle_wf_ok (dec : JsonDec) (handlers : String → Option Handler)
    (response : Json) (mr : Nat) (hwf : wfResponse response = true) :
    ∃ rs, handle_tool_calls dec handlers response mr = .ok rs := by
  cases response with
  | obj rfs =>
    cases hc : jLookup (Json.obj rfs) "choices" with
    | none =>
      exact ⟨[], by simp [handle_tool_calls, pyGetItem, hc, bind, Except.bind,
        pure, Except.pure]⟩
    | some v =>
      cases v with
      | obj cfs =>
        exact ⟨[], by simp [handle_tool_calls, pyGetItem, hc, pyIndex, bind, Except.bind,
          pure, Except.pure]⟩
      | arr cs =>
        cases cs with
        | nil =>
          exact ⟨[], by simp [handle_tool_calls, pyGetItem, hc, pyIndex, bind, Except.bind,
            pure, Except.pure]⟩
        | cons c rest =>
          cases c with
          | obj cmf =>
            cases hm : jLookup (Json.obj cmf) "message" with
            | none =>
              exact ⟨[], by simp [handle_tool_calls, pyGetItem, hc, pyIndex, hm,
                bind, Except.bind, pure, Except.pure]⟩
            | some mv =>
              cases mv with
              | obj mf =>
                cases htc : jLookup (Json.obj mf) "tool_calls" with
                | none =>
                  exact ⟨[], by simp [handle_tool_calls, pyGetItem, hc, pyIndex, hm,
                    pyContains, htc, bind, Except.bind, pure, Except.pure]⟩
                | some tv =>
                  cases tv with
                  | arr cs' =>
                    simp only [wfResponse, hc, hm, htc, List.all_eq_true] at hwf
                    obtain ⟨rs, hrs⟩ := runCalls_wf_ok dec handlers mr cs' hwf
                    exact ⟨rs, by simp [handle_tool_calls, pyGetItem, hc, pyIndex, hm,
                      pyContains, htc, pyGet, pyIter, hrs, bind, Except.bind,
                      pure, Except.pure]⟩
                  | null => simp [wfResponse, hc, hm, htc] at hwf
                  | bool b => simp [wfResponse, hc, hm, htc] at hwf
                  | num n => simp [wfResponse, hc, hm, htc] at hwf
                  | str s => simp [wfResponse, hc, hm, htc] at hwf
                  | obj fs => simp [wfResponse, hc, hm, htc] at hwf
              | null => simp [wfResponse, hc, hm] at hwf
              | bool b => simp [wfResponse, hc, hm] at hwf
              | num n => simp [wfResponse, hc, hm] at hwf
              | str s => simp [wfResponse, hc, hm] at hwf
              | arr xs => simp [wfResponse, hc, hm] at hwf
          | null => simp [wfResponse, hc] at hwf
          | bool b => simp [wfResponse, hc] at hwf
          | num n => simp [wfResponse, hc] at hwf
          | str s => simp [wfResponse, hc] at hwf
          | arr xs => simp [wfResponse, hc] at hwf
      | null => simp [wfResponse, hc] at hwf
      | bool b => simp [wfResponse, hc] at hwf
      | num n => simp [wfResponse, hc] at hwf
      | str s => simp [wfResponse, hc] at hwf
  | null => simp [wfResponse] at hwf
  | bool b => simp [wfResponse] at hwf
  | num n => simp [wfResponse] at hwf
  | str s => simp [wfResponse] at hwf
  | arr xs => simp [wfResponse] at hwf

/-- A response whose single tool-call entry is an object without a
`"function"` field. -/
def respBad : Json :=
  .obj [("choices", .arr [.obj [("message", .obj [("tool_calls", .arr [.obj []])])]])]

/-- C3 counterexample: the claim says `handle_tool_calls` never raises and
surfaces every malformed entry as a `success = false` ToolResult.  On a
response whose tool-call entry lacks the `"function"` field,
`_execute_tool_call` evaluates `tool_call["function"]` and the resulting
`KeyError` propagates out of `handle_tool_calls` instead of becoming a
ToolResult. -/
theorem handle_tool_calls_raises_on_fieldless_entry :
    handle_tool_calls decNum handlersNone respBad 3 = Except.error PyExc.keyError := rfl

/-- C3 (amended): extraction never raises — a missing/empty `choices` or a
message without `tool_calls` yields the empty result list — and dispatch
never raises provided every tool-call entry is structurally well formed (an
object whose `function` field is an object with a hashable `name` and a
string `arguments` payload); a well-formed entry whose argument payload
fails to decode is surfaced as a ToolResult with `success = false`.  An
entry missing those structural fields makes `handle_tool_calls` raise
instead (see the counterexample). -/
theorem handle_tool_calls_amended :
    (∀ (dec : JsonDec) (handlers : String → Option Handler) (response : Json) (mr : Nat),
      wfResponse response = true →
      ∃ rs, handle_tool_calls dec handlers response mr = .ok rs) ∧
    (∀ (dec : JsonDec) (handlers : String → Option Handler) (tc fn tname tid : Json)
      (s msg : String) (mr : Nat),
      pyGetItem tc "function" = .ok fn → pyGetItem fn "name" = .ok tname →
      pyGet tc "id" (.str "") = .ok tid → pyGetItem fn "arguments" = .ok (.str s) →
      dec s = .error msg →
      execute_tool_call dec handlers tc mr =
        .ok (errorResult tid tname ("Failed to parse tool arguments: " ++ msg), ⟨0, []⟩) ∧
      jLookup (errorResult tid tname ("Failed to parse tool arguments: " ++ msg)) "success"
        = some (.bool false)) := by
  constructor
  · intro dec handlers response mr hwf
    exact handle_wf_ok dec handlers response mr hwf
  · intro dec handlers tc fn tname tid s msg mr hfn hname hid hargs hdec
    constructor
    · simp [execute_tool_call, hfn, hname, hid, hargs, hdec, bind, Except.bind,
        pure, Except.pure]
    · rfl

/-- Witness for the amended C3 at concrete inputs: a well-formed response is
handled without an exception, and a well-formed entry with an undecodable
payload becomes a `success = false` ToolResult. -/
theorem handle_tool_calls_amended_witness :
    (∃ rs, handle_tool_calls decNum handlersNone (oracle0 0) 3 = .ok rs) ∧
    (execute_tool_call decNum handlersFlaky tcBadArgs 5 =
      .ok (errorResult (.str "c2") (.str "t") "Failed to parse tool arguments: bad", ⟨0, []⟩) ∧
    jLookup (errorResult (.str "c2") (.str "t") "Failed to parse tool arguments: bad") "success"
      = some (.bool false)) :=
  ⟨handle_tool_calls_amended.1 decNum handlersNone (oracle0 0) 3 rfl,
   handle_tool_calls_amended.2 decNum handlersFlaky tcBadArgs
     (.obj [("name", .str "t"), ("arguments", .str "?")]) (.str "t") (.str "c2") "?" "bad" 5
     rfl rfl rfl rfl rfl⟩

/-- Every element of a successful execution-loop result list is `None` (only
possible with zero retries) or a tagged success/failure record. -/
theorem runCalls_forms (dec : JsonDec) (handlers : String → Option Handler) (mr : Nat) :
    ∀ (calls rs : List Json), runCalls dec handlers mr calls = .ok rs →
    ∀ r ∈ rs, (r = Json.null ∧ mr = 0) ∨
      ∃ tid tname, (∃ v, r = successResult tid tname v) ∨
        (∃ e, r = errorResult tid tname e) := by
  intro calls
  induction calls with
  | nil =>
    intro rs hrun r hr
    simp only [runCalls, pure, Except.pure, Except.ok.injEq] at hrun
    subst hrun
    simp at hr
  | cons tc rest ih =>
    intro rs hrun r hr
    cases hex : execute_tool_call dec handlers tc mr with
    | error e => simp [runCalls, hex, bind, Except.bind] at hrun
    | ok p =>
      cases hrest : runCalls dec handlers mr rest with
      | error e => simp [runCalls, hex, hrest, bind, Except.bind] at hrun
      | ok rs' =>
        simp only [runCalls, hex, hrest, bind, Except.bind, pure, Except.pure,
          Except.ok.injEq] at hrun
        subst hrun
        rcases List.mem_cons.mp hr with rfl | hmem
        · have hex' : execute_tool_call dec handlers tc mr = .ok (p.1, p.2) := by
            rw [Prod.mk.eta]; exact hex
          rcases execute_ok_forms hex' with ⟨h0, hm0⟩ | ⟨tn, v, hv⟩ | ⟨tn, e, he⟩
          · exact Or.inl ⟨h0, hm0⟩
          · exact Or.inr ⟨callIdOf tc, tn, Or.inl ⟨v, hv⟩⟩
          · exact Or.inr ⟨callIdOf tc, tn, Or.inr ⟨e, he⟩⟩
        · exact ih rs' hrest r hmem

/-- Reading the id and name back out of tagged result records never raises,
so the tool-message construction loop succeeds. -/
theorem toolMessages_ok (enc : Json → String) :
    ∀ rs : List Json,
    (∀ r ∈ rs, ∃ tid tname, (∃ v, r = successResult tid tname v) ∨
      (∃ e, r = errorResult tid tname e)) →
    ∃ tms, toolMessages enc rs = .ok tms := by
  intro rs
  induction rs with
  | nil => intro _; exact ⟨[], rfl⟩
  | cons r rest ih =>
    intro hall
    obtain ⟨tid, tname, hf⟩ := hall r (by simp)
    obtain ⟨tms', htms'⟩ := ih (fun x hx => hall x (by simp [hx]))
    rcases hf with ⟨v, rfl⟩ | ⟨e, rfl⟩
    · have h1 : pyGetItem (successResult tid tname v) "tool_call_id" = .ok tid := rfl
      have h2 : pyGetItem (successResult tid tname v) "tool_name" = .ok tname := rfl
      exact ⟨toolMessage enc tid tname (successResult tid tname v) :: tms',
        by simp [toolMessages, h1, h2, htms', bind, Except.bind, pure, Except.pure]⟩
    · have h1 : pyGetItem (errorResult tid tname e) "tool_call_id" = .ok tid := rfl
      have h2 : pyGetItem (errorResult tid tname e) "tool_name" = .ok tname := rfl
      exact ⟨toolMessage enc tid tname (errorResult tid tname e) :: tms',
        by simp [toolMessages, h1, h2, htms', bind, Except.bind, pure, Except.pure]⟩

/-- A well-formed response that carries tool calls makes the loop body of
`chat_with_tools` execute the calls and continue (no break, no exception). -/
theorem wf_has_turn (dec : JsonDec) (enc : Json → String)
    (handlers : String → Option Handler) (response : Json)
    (hwf : wfResponse response = true) (hhas : hasToolCalls response = true) :
    ∃ app, turnAppends dec enc handlers response = .ok (some app) := by
  cases response with
  | obj rfs =>
    cases hc : jLookup (Json.obj rfs) "choices" with
    | none => simp [hasToolCalls, hc] at hhas
    | some v =>
      cases v with
      | arr cs =>
        cases cs with
        | nil => simp [hasToolCalls, hc] at hhas
        | cons c rest =>
          cases c with
          | obj cmf =>
            cases hm : jLookup (Json.obj cmf) "message" with
            | none => simp [hasToolCalls, hc, hm] at hhas
            | some mv =>
              cases mv with
              | obj mf =>
                cases htc : jLookup (Json.obj mf) "tool_calls" with
                | none => simp [hasToolCalls, hc, hm, htc] at hhas
                | some tv =>
                  cases tv with
                  | arr cs' =>
                    simp only [wfResponse, hc, hm, htc, List.all_eq_true] at hwf
                    obtain ⟨rs, hrs⟩ := runCalls_wf_ok dec handlers 3 cs' hwf
                    have hforms := runCalls_forms dec handlers 3 cs' rs hrs
                    have htagged : ∀ r ∈ rs, ∃ tid tname,
                        (∃ v, r = successResult tid tname v) ∨
                        (∃ e, r = errorResult tid tname e) := by
                      intro r hr
                      rcases hforms r hr with ⟨-, h30⟩ | h
                      · exact absurd h30 (by simp)
                      · exact h
                    obtain ⟨tms, htms⟩ := toolMessages_ok enc rs htagged
                    have hhandle : handle_tool_calls dec handlers (Json.obj rfs) 3 = .ok rs := by
                      simp [handle_tool_calls, pyGetItem, hc, pyIndex, hm, pyContains, htc,
                        pyGet, pyIter, hrs, bind, Except.bind, pure, Except.pure]
                    refine ⟨assistantMessage ((jLookup (Json.obj mf) "content").getD (.str ""))
                      (.arr cs') :: tms, ?_⟩
                    simp [turnAppends, pyGet, hc, pyIndex, hm, pyContains, htc, hhandle, htms,
                      bind, Except.bind, pure, Except.pure]
                  | null => simp [wfResponse, hc, hm, htc] at hwf
                  | bool b => simp [wfResponse, hc, hm, htc] at hwf
                  | num n => simp [wfResponse, hc, hm, htc] at hwf
                  | str s => simp [wfResponse, hc, hm, htc] at hwf
                  | obj fs => simp [wfResponse, hc, hm, htc] at hwf
              | null => simp [hasToolCalls, hc, hm] at hhas
              | bool b => simp [hasToolCalls, hc, hm] at hhas
              | num n => simp [hasToolCalls, hc, hm] at hhas
              | str s => simp [hasToolCalls, hc, hm] at hhas
              | arr xs => simp [hasToolCalls, hc, hm] at hhas
          | null => simp [hasToolCalls, hc] at hhas
          | bool b => simp [hasToolCalls, hc] at hhas
          | num n => simp [hasToolCalls, hc] at hhas
          | str s => simp [hasToolCalls, hc] at hhas
          | arr xs => simp [hasToolCalls, hc] at hhas
      | obj cfs => simp [hasToolCalls, hc] at hhas
      | null => simp [hasToolCalls, hc] at hhas
      | bool b => simp [hasToolCalls, hc] at hhas
      | num n => simp [hasToolCalls, hc] at hhas
      | str s => simp [hasToolCalls, hc] at hhas
  | null => simp [hasToolCalls] at hhas
  | bool b => simp [hasToolCalls] at hhas
  | num n => simp [hasToolCalls] at hhas
  | str s => simp [hasToolCalls] at hhas
  | arr xs => simp [hasToolCalls] at hhas

/-- If every remaining send yields a tool-requesting turn, the loop runs its
full fuel, ending with the iteration counter advanced by the fuel and the
last response as `final_response`. -/
theorem chatLoop_all_tool_turns (dec : JsonDec) (enc : Json → String)
    (handlers : String → Option Handler) (oracle : Nat → Json) :
    ∀ (remaining : Nat) (st : ChatState), 0 < remaining →
    (∀ k, st.iteration ≤ k → k < st.iteration + remaining →
      ∃ app, turnAppends dec enc handlers (oracle k) = .ok (some app)) →
    ∃ msgs, chatLoop dec enc handlers oracle remaining st =
      .ok ⟨msgs, st.iteration + remaining, oracle (st.iteration + remaining - 1)⟩ := by
  intro remaining
  induction remaining with
  | zero => intro st h; exact absurd h (by simp)
  | succ r ih =>
    intro st _ hall
    obtain ⟨app, happ⟩ := hall st.iteration le_rfl (by omega)
    cases r with
    | zero =>
      refine ⟨st.messages ++ app, ?_⟩
      simp [chatLoop, happ]
    | succ r' =>
      obtain ⟨msgs, hrec⟩ :=
        ih ⟨st.messages ++ app, st.iteration + 1, oracle st.iteration⟩ (Nat.succ_pos r')
          (fun k hk1 hk2 => by
            dsimp only at hk1 hk2
            exact hall k (by omega) (by omega))
      refine ⟨msgs, ?_⟩
      dsimp only at hrec
      have e1 : st.iteration + 1 + (r' + 1) = st.iteration + (r' + 1 + 1) := by omega
      rw [e1] at hrec
      simp only [chatLoop, happ]
      exact hrec

/-- C1: for every conversation in which each of the first `max_iterations`
responses is well formed and carries tool calls, `chat_with_tools` consults
`chat_completion` exactly `max_iterations` times (the returned `iterations`
count, incremented once immediately before each send, equals
`max_iterations`), then terminates, returning the response of the last send
as `final_response`. -/
theorem chat_with_tools_all_tool_turns
    (dec : JsonDec) (enc : Json → String) (handlers : String → Option Handler)
    (oracle : Nat → Json) (u : String) (sys : Option String) (hist : List Json) (n : Nat)
    (hn : 0 < n)
    (hall : ∀ k, k < n → wfResponse (oracle k) = true ∧ hasToolCalls (oracle k) = true) :
    ∃ msgs, chat_with_tools dec enc handlers oracle u sys hist n =
      .ok (Json.obj [("success", .bool true), ("iterations", .num (Int.ofNat n)),
        ("final_response", oracle (n - 1)), ("conversation", .arr msgs)]) := by
  have hturn : ∀ k, k < n →
      ∃ app, turnAppends dec enc handlers (oracle k) = .ok (some app) := fun k hk =>
    wf_has_turn dec enc handlers (oracle k) (hall k hk).1 (hall k hk).2
  obtain ⟨msgs, hloop⟩ := chatLoop_all_tool_turns dec enc handlers oracle n
    ⟨(match sys with
      | some s => Json.obj [("role", .str "system"), ("content", .str s)] :: hist
      | none => hist) ++
      [Json.obj [("role", .str "user"), ("content", .str u)]], 0, Json.null⟩ hn
    (fun k hk1 hk2 => by
      dsimp only at hk2
      exact hturn k (by omega))
  dsimp only at hloop
  simp only [Nat.zero_add] at hloop
  refine ⟨msgs, ?_⟩
  simp only [chat_with_tools, bind, Except.bind]
  rw [hloop]
  simp [pure, Except.pure]

/-- Witness for C1 at a concrete input: `oracle0` requests (an empty list of)
tools on every turn, so a `max_iterations = 2` conversation performs exactly
2 sends and reports `iterations = 2` with the second response as
`final_response`. -/
theorem chat_with_tools_all_tool_turns_witness :
    ∃ msgs, chat_with_tools decNum enc0 handlersNone oracle0 "q" none [] 2 =
      .ok (Json.obj [("success", .bool true), ("iterations", .num (Int.ofNat 2)),
        ("final_response", oracle0 1), ("conversation", .arr msgs)]) :=
  chat_with_tools_all_tool_turns decNum enc0 handlersNone oracle0 "q" none [] 2
    (by decide) (fun k _ => ⟨rfl, rfl⟩)

/-- Executing a list of calls and reading the results back as tool messages
yields one message per call, in order, each tagged with the originating
call's id. -/
theorem runCalls_toolMessages_ids (dec : JsonDec) (handlers : String → Option Handler)
    (enc : Json → String) (mr : Nat) :
    ∀ (calls rs tms : List Json), runCalls dec handlers mr calls = .ok rs →
    toolMessages enc rs = .ok tms →
    List.Forall₂ (fun tc tm => jLookup tm "tool_call_id" = some (callIdOf tc)) calls tms := by
  intro calls
  induction calls with
  | nil =>
    intro rs tms hrun htm
    simp only [runCalls, pure, Except.pure, Except.ok.injEq] at hrun
    subst hrun
    simp only [toolMessages, pure, Except.pure, Except.ok.injEq] at htm
    subst htm
    exact List.Forall₂.nil
  | cons tc rest ih =>
    intro rs tms hrun htm
    cases hex : execute_tool_call dec handlers tc mr with
    | error e => simp [runCalls, hex, bind, Except.bind] at hrun
    | ok p =>
      cases hrest : runCalls dec handlers mr rest with
      | error e => simp [runCalls, hex, hrest, bind, Except.bind] at hrun
      | ok rs' =>
        simp only [runCalls, hex, hrest, bind, Except.bind, pure, Except.pure,
          Except.ok.injEq] at hrun
        subst hrun
        cases hid : pyGetItem p.1 "tool_call_id" with
        | error e => simp [toolMessages, hid, bind, Except.bind] at htm
        | ok tid =>
          cases hnm : pyGetItem p.1 "tool_name" with
          | error e => simp [toolMessages, hid, hnm, bind, Except.bind] at htm
          | ok tn =>
            cases htmr : toolMessages enc rs' with
            | error e => simp [toolMessages, hid, hnm, htmr, bind, Except.bind] at htm
            | ok tms' =>
              simp only [toolMessages, hid, hnm, htmr, bind, Except.bind, pure, Except.pure,
                Except.ok.injEq] at htm
              subst htm
              refine List.Forall₂.cons ?_ (ih rs' tms' hrest htmr)
              have hex' : execute_tool_call dec handlers tc mr = .ok (p.1, p.2) := by
                rw [Prod.mk.eta]; exact hex
              have hhead : jLookup (toolMessage enc tid tn p.1) "tool_call_id" = some tid := rfl
              rcases execute_ok_forms hex' with ⟨h0, -⟩ | ⟨tname, v, hv⟩ | ⟨tname, e, he⟩
              · rw [h0] at hid; simp [pyGetItem] at hid
              · have hok : pyGetItem (successResult (callIdOf tc) tname v) "tool_call_id"
                    = .ok (callIdOf tc) := rfl
                rw [hv, hok] at hid
                have htid : tid = callIdOf tc := (Except.ok.inj hid).symm
                rw [hhead, htid]
              · have hok : pyGetItem (errorResult (callIdOf tc) tname e) "tool_call_id"
                    = .ok (callIdOf tc) := rfl
                rw [he, hok] at hid
                have htid : tid = callIdOf tc := (Except.ok.inj hid).symm
                rw [hhead, htid]

/-- C7: for every response on which the orchestrator executes tools, the
messages it appends are the assistant message followed by exactly one
tool-role message per tool call extracted from the response, in the same
order, each appended message's `tool_call_id` equalling the identifier
(`tool_call.get("id", "")`) of its originating call. -/
theorem turn_appends_order_and_ids
    (dec : JsonDec) (enc : Json → String) (handlers : String → Option Handler)
    (response : Json) (app calls : List Json)
    (happ : turnAppends dec enc handlers response = .ok (some app))
    (hcalls : extractedCalls response = .ok calls) :
    ∃ content tcs toolMsgs, app = assistantMessage content tcs :: toolMsgs ∧
      List.Forall₂ (fun tc tm => jLookup tm "tool_call_id" = some (callIdOf tc))
        calls toolMsgs := by
  cases hcs0 : pyGetItem response "choices" with
  | error e => simp [extractedCalls, hcs0, bind, Except.bind] at hcalls
  | ok cs0 =>
  cases hc0 : pyIndex cs0 0 with
  | error e => simp [extractedCalls, hcs0, hc0, bind, Except.bind] at hcalls
  | ok c0 =>
  cases hm0 : pyGetItem c0 "message" with
  | error e => simp [extractedCalls, hcs0, hc0, hm0, bind, Except.bind] at hcalls
  | ok m0 =>
  cases htcs0 : pyGet m0 "tool_calls" (.arr []) with
  | error e => simp [extractedCalls, hcs0, hc0, hm0, htcs0, bind, Except.bind] at hcalls
  | ok tcs0 =>
  cases hiter : pyIter tcs0 with
  | error e => simp [extractedCalls, hcs0, hc0, hm0, htcs0, hiter, bind, Except.bind] at hcalls
  | ok calls0 =>
  have hcalls0 : calls0 = calls := by
    have h5 := hcalls
    simp only [extractedCalls, hcs0, hc0, hm0, htcs0, hiter, bind, Except.bind] at h5
    exact Except.ok.inj h5
  rw [hcalls0] at hiter
  have hch : pyGet response "choices" (.arr [.obj []]) = .ok cs0 := pyGetItem_pyGet hcs0
  have hmg : pyGet c0 "message" (.obj []) = .ok m0 := pyGetItem_pyGet hm0
  cases hcb : pyContains "tool_calls" m0 with
  | error e => simp [turnAppends, hch, hc0, hmg, hcb, bind, Except.bind] at happ
  | ok b =>
  cases b with
  | false =>
    simp [turnAppends, hch, hc0, hmg, hcb, bind, Except.bind, pure, Except.pure] at happ
  | true =>
  cases hct : pyGet m0 "content" (.str "") with
  | error e => simp [turnAppends, hch, hc0, hmg, hcb, hct, bind, Except.bind] at happ
  | ok content =>
  have hhandle : handle_tool_calls dec handlers response 3 = runCalls dec handlers 3 calls := by
    simp [handle_tool_calls, hcs0, hc0, hm0, hcb, htcs0, hiter, bind, Except.bind]
  cases hres : runCalls dec handlers 3 calls with
  | error e =>
    rw [hres] at hhandle
    simp [turnAppends, hch, hc0, hmg, hcb, hct, htcs0, hhandle, bind, Except.bind] at happ
  | ok results =>
  rw [hres] at hhandle
  cases htm : toolMessages enc results with
  | error e =>
    simp [turnAppends, hch, hc0, hmg, hcb, hct, htcs0, hhandle, htm, bind, Except.bind] at happ
  | ok tms =>
  have happ' : app = assistantMessage content tcs0 :: tms := by
    have h6 := happ
    simp only [turnAppends, hch, hc0, hmg, hcb, hct, htcs0, hhandle, htm, if_true,
      bind, Except.bind, pure, Except.pure, Except.ok.injEq, Option.some.injEq] at h6
    exact h6.symm
  exact ⟨content, tcs0, tms, happ',
    runCalls_toolMessages_ids dec handlers enc 3 calls results tms hres htm⟩

/-- A response whose message carries exactly one well-formed tool call. -/
def respOne : Json :=
  .obj [("choices", .arr [.obj [("message",
    .obj [("content", .str "x"), ("tool_calls", .arr [tcGood])])]])]

/-- Witness for C7 at a concrete input: the single appended tool message
carries the id `"c1"` of the originating call. -/
theorem turn_appends_order_and_ids_witness :
    ∃ content tcs toolMsgs,
      ([assistantMessage (.str "x") (.arr [tcGood]),
        toolMessage enc0 (.str "c1") (.str "t")
          (successResult (.str "c1") (.str "t") (.num 7))] : List Json) =
        assistantMessage content tcs :: toolMsgs ∧
      List.Forall₂ (fun tc tm => jLookup tm "tool_call_id" = some (callIdOf tc))
        [tcGood] toolMsgs :=
  turn_appends_order_and_ids decNum enc0 handlersFlaky respOne
    [assistantMessage (.str "x") (.arr [tcGood]),
     toolMessage enc0 (.str "c1") (.str "t")
       (successResult (.str "c1") (.str "t") (.num 7))]
    [tcGood] rfl rfl
